import Mathlib

/-! Verification of the transit-arrivals normalization and aggregation
pipeline of the Personal-Commute dashboard (api.js, app.js, server.js).

The JavaScript source is shallowly embedded:
* possibly-undefined JS values are modelled as `Option`;
* JS numbers that are in fact integers (epoch seconds, `Date.now()`
  milliseconds) are modelled as `Int`; `Math.round` of an integer fraction is
  modelled exactly by `jsRoundDiv`;
* `NaN` results of arithmetic on `undefined` are modelled as `none`;
* the GPS interpolation (`getTrainPosition`) works over `ℝ` with `Real.sqrt`;
* `Array.prototype.sort(comparator)` (a stable ascending sort per the
  ECMAScript spec) is modelled by `List.insertionSort`, which is stable;
* network fetches are abstracted into explicit inputs (`Except` for a call
  that can throw, a function `String → _` for per-platform fetch results).
-/

namespace Commute

/-- JS `x || y` for a numeric-valued optional field: falls back exactly when
`x` is undefined or `0` (both falsy). -/
def jsOrNum (x y : Option Int) : Option Int :=
  match x with
  | some v => if v = 0 then y else some v
  | none => y

/-- JS `x || y` for a string-valued optional field: falls back exactly when
`x` is undefined or the empty string (both falsy). -/
def jsOrStr (x y : Option String) : Option String :=
  match x with
  | some s => if s = "" then y else some s
  | none => y

/-- Models `Math.round (num / den)` for an integer fraction with positive
denominator: round half toward positive infinity.  Lean integer division is
Euclidean division, which is floor division for a positive denominator, so
this is `⌊num / den + 1 / 2⌋` (see `jsRoundDiv_eq_floor`). -/
def jsRoundDiv (num den : Int) : Int := (2 * num + den) / (2 * den)

/-! Section: api.js — `API.getStationArrivals` (normalization) -/

/-- One entry of the upstream JSON `arrivals` list
(`{routeId, directionId, tripId, arrivalTime|departureTime, …}`, §6 of the
spec).  Every field may be absent. -/
structure JsonArrival where
  routeId : Option String
  directionId : Option Int
  tripId : Option String
  arrivalTime : Option Int
  departureTime : Option Int
  arrivalTimeFormatted : Option String
  departureTimeFormatted : Option String
deriving DecidableEq

/-- The normalized arrival record built in `API.getStationArrivals`
(api.js lines 187-194).  `minutesAway = none` models the `NaN` produced when
`arrival.arrivalTime` is `undefined`. -/
structure MergedArrival where
  time : Option Int
  timeFormatted : Option String
  routeId : Option String
  directionId : Option Int
  tripId : Option String
  minutesAway : Option Int
deriving DecidableEq

/-- The comparator of `arrivals.sort((a, b) => a.time - b.time)`
(api.js line 195): ascending by `time`.  An undefined `time` makes the JS
comparator return `NaN` (engine-dependent order); it is modelled by the
default key `0`, which no claim depends on. -/
def timeLe (a b : MergedArrival) : Prop := a.time.getD 0 ≤ b.time.getD 0

instance : DecidableRel timeLe := fun a b =>
  inferInstanceAs (Decidable (a.time.getD 0 ≤ b.time.getD 0))

instance : IsTotal MergedArrival timeLe := ⟨fun _ _ => le_total _ _⟩

instance : IsTrans MergedArrival timeLe := ⟨fun _ _ _ => le_trans⟩

/-- The `.map` step of api.js lines 187-194.  `nowMs` is the integer
`Date.now()` in milliseconds, so the code expression
`Math.round((arrival.arrivalTime - Date.now() / 1000) / 60)` is
`Math.round((1000 * t - nowMs) / 60000)`.  Note the code uses
`arrival.arrivalTime` here with no `departureTime` fallback: when
`arrivalTime` is absent the subtraction is `NaN` (modelled `none`). -/
def normalizeEntry (nowMs : Int) (a : JsonArrival) : MergedArrival :=
  { time := jsOrNum a.arrivalTime a.departureTime
    timeFormatted := jsOrStr a.arrivalTimeFormatted a.departureTimeFormatted
    routeId := a.routeId
    directionId := a.directionId
    tripId := a.tripId
    minutesAway := a.arrivalTime.map (fun t => jsRoundDiv (1000 * t - nowMs) 60000) }

/-- api.js lines 179-195: filter the raw entries to the wanted `routeId`
(`arrival.routeId === routeId`), map each to a normalized record, and sort
ascending by `time`. -/
def normalize (entries : List JsonArrival) (routeId : String) (nowMs : Int) :
    List MergedArrival :=
  List.insertionSort timeLe
    ((entries.filter (fun a => a.routeId == some routeId)).map (normalizeEntry nowMs))

/-- Per-direction arrival lists (`northbound` / `southbound`). -/
structure DirectionLists where
  northbound : List MergedArrival
  southbound : List MergedArrival
deriving DecidableEq

/-- api.js lines 221-233, `API.getLineArrivals`: group the normalized
arrivals of one platform by `directionId` (`0` northbound, `1` southbound)
and keep the first 3 of each (`slice(0, 3)`). -/
def getLineArrivals (arrivals : List MergedArrival) : DirectionLists :=
  { northbound := (arrivals.filter (fun a => a.directionId == some 0)).take 3
    southbound := (arrivals.filter (fun a => a.directionId == some 1)).take 3 }

/-! Section: app.js — `App.fetchTransitData` (multi-platform aggregation) -/

/-- One entry of `App.config.nLinePlatforms` (app.js lines 64-69): the
physical platform ids of a logical station together with the directions the
station's platforms are declared to serve. -/
structure NLinePlatformConfig where
  platforms : List String
  directions : List String
deriving DecidableEq

/-- The `App.config.nLinePlatforms` table (app.js lines 64-69). -/
def nLinePlatforms : List (String × NLinePlatformConfig) :=
  [("35365", ⟨["35365"], ["southbound"]⟩),
   ("35254", ⟨["35254", "35255"], ["northbound", "southbound"]⟩),
   ("35246", ⟨["35246", "35247"], ["northbound", "southbound"]⟩),
   ("34668", ⟨["34668"], ["northbound"]⟩)]

/-- app.js lines 261-292: for one N-line logical station, fetch each platform
(`dataOf` abstracts `API.getLineArrivals`), push its `northbound` list onto
the accumulator only when the station is declared for `northbound` (same for
`southbound`), then sort each merged list ascending by `time`
(`allNorthbound.sort((a, b) => a.time - b.time)`). -/
def fetchStationData (cfg : NLinePlatformConfig) (dataOf : String → DirectionLists) :
    DirectionLists :=
  let merged := cfg.platforms.foldl
    (fun (acc : List MergedArrival × List MergedArrival) pid =>
      let pd := dataOf pid
      (acc.1 ++ (if "northbound" ∈ cfg.directions then pd.northbound else []),
       acc.2 ++ (if "southbound" ∈ cfg.directions then pd.southbound else [])))
    ([], [])
  { northbound := List.insertionSort timeLe merged.1
    southbound := List.insertionSort timeLe merged.2 }

/-! Section: app.js — status labels (`App.renderYourStation`) -/

/-- app.js lines 798-806: the display countdown is clamped
(`Math.max(0, train.minutesAway)`) and the status label is then derived from
the clamped value by the fixed thresholds 1 and 5. -/
def renderStatus (minutesAway : Int) : String :=
  let ma := max 0 minutesAway
  if ma ≤ 1 then "Arriving"
  else if ma ≤ 5 then "Approaching"
  else "Scheduled"

/-- Modelled from the spec's words, for comparison with `renderStatus`: the
thresholds applied to the raw `minutesAway`
(`minutesAway <= 1 → Arriving`, `1 < minutesAway <= 5 → Approaching`,
else `Scheduled`). -/
def specStatus (minutesAway : Int) : String :=
  if minutesAway ≤ 1 then "Arriving"
  else if minutesAway ≤ 5 then "Approaching"
  else "Scheduled"

/-! Section: server.js — the GTFS-RT G-line decode
(the api/rtd/gline/:stopId route handler, lines 309-389) -/

/-- GTFS-RT trip descriptor fields used by the handler. -/
structure TripDescriptor where
  routeId : Option String
  tripId : Option String
  directionId : Option Int
deriving DecidableEq

/-- GTFS-RT stop-time event: an optional arrival (or departure) time.
A decoded int64 time is a protobuf `Long` object, so any present value is
truthy in the `arrival && arrival.time` test. -/
structure StopTimeEvent where
  time : Option Int
deriving DecidableEq

/-- GTFS-RT stop-time update. -/
structure StopTimeUpdate where
  stopId : Option String
  arrival : Option StopTimeEvent
  departure : Option StopTimeEvent
deriving DecidableEq

/-- GTFS-RT trip update: a trip descriptor plus its stop-time updates
(`entity.tripUpdate.stopTimeUpdate || []`). -/
structure TripUpdate where
  trip : TripDescriptor
  stopTimeUpdate : List StopTimeUpdate
deriving DecidableEq

/-- GTFS-RT feed entity: optionally a trip update. -/
structure FeedEntity where
  tripUpdate : Option TripUpdate
deriving DecidableEq

/-- GTFS-RT feed header (timestamp in epoch seconds). -/
structure FeedHeader where
  timestamp : Int
deriving DecidableEq

/-- GTFS-RT feed message. -/
structure FeedMessage where
  header : FeedHeader
  entity : List FeedEntity
deriving DecidableEq

/-- The arrival record pushed by the handler (server.js lines 344-360;
the presentational `arrivalTimeFormatted` string and the constant
constant `status` field (always the string Scheduled) are not modelled). -/
structure GlineArrival where
  routeId : Option String
  tripId : Option String
  directionId : Int
  arrivalTime : Int
  stopId : String
deriving DecidableEq

/-- Builds the pushed record: `directionId: trip.directionId || 0` (for an
integer field, `getD 0` agrees with `|| 0` because `0 || 0 = 0`),
`arrivalTime: Number(arrival.time)`. -/
def mkGlineArrival (trip : TripDescriptor) (sid : String) (t : Int) : GlineArrival :=
  { routeId := trip.routeId
    tripId := trip.tripId
    directionId := trip.directionId.getD 0
    arrivalTime := t
    stopId := sid }

/-- The body of the inner loop (server.js lines 336-361): emit a record iff
`stopUpdate.stopId === stopId` and `arrival && arrival.time` holds. -/
def stopUpdateArrival (sid : String) (trip : TripDescriptor) (su : StopTimeUpdate) :
    Option GlineArrival :=
  if su.stopId = some sid then
    match su.arrival with
    | some ev =>
      match ev.time with
      | some t => some (mkGlineArrival trip sid t)
      | none => none
    | none => none
  else none

/-- The double loop of server.js lines 330-365, pushing onto `arrivals`. -/
def glineDecodeLoop (feed : FeedMessage) (sid : String) : List GlineArrival :=
  feed.entity.foldl
    (fun acc e =>
      match e.tripUpdate with
      | some tu =>
        tu.stopTimeUpdate.foldl
          (fun acc2 su =>
            match stopUpdateArrival sid tu.trip su with
            | some r => acc2 ++ [r]
            | none => acc2)
          acc
      | none => acc)
    []

/-- Comparator of `arrivals.sort((a, b) => a.arrivalTime - b.arrivalTime)`
(server.js line 368). -/
def glineLe (a b : GlineArrival) : Prop := a.arrivalTime ≤ b.arrivalTime

instance : DecidableRel glineLe := fun a b =>
  inferInstanceAs (Decidable (a.arrivalTime ≤ b.arrivalTime))

instance : IsTotal GlineArrival glineLe := ⟨fun _ _ => le_total _ _⟩

instance : IsTrans GlineArrival glineLe := ⟨fun _ _ _ => le_trans⟩

/-- The `arrivals` list returned by the G-line endpoint: the decoded records
sorted ascending by `arrivalTime`. -/
def glineArrivals (feed : FeedMessage) (sid : String) : List GlineArrival :=
  List.insertionSort glineLe (glineDecodeLoop feed sid)

/-- All (trip descriptor, stop-time update) pairs of a feed, in feed order:
the domain the decode loop iterates over. -/
def allStopUpdates (feed : FeedMessage) : List (TripDescriptor × StopTimeUpdate) :=
  feed.entity.flatMap
    (fun e =>
      match e.tripUpdate with
      | some tu => tu.stopTimeUpdate.map (fun su => (tu.trip, su))
      | none => [])

/-! Section: api.js — `API.getDriveTimes` (route-provider fallback) -/

/-- One element of the `routes` array of the route-provider response.
`duration` holds the integer number of seconds `parseInt(route.duration)`
extracts from the `"<n>s"` string. -/
structure RouteInfo where
  duration : Int
  distanceMeters : Int
  description : Option String
deriving DecidableEq

/-- The route-provider response body: `routes` may be absent. -/
structure RoutesResponse where
  routes : Option (List RouteInfo)
deriving DecidableEq

/-- The drive-time result record (`_isFallback` is written `isFallback`). -/
structure DriveTime where
  minutes : Int
  distance : Int
  description : String
  isFallback : Bool
deriving DecidableEq

/-- api.js lines 128-135, `API.getFallbackDriveTime`. -/
def getFallbackDriveTime : DriveTime :=
  { minutes := 30, distance := 15, description := "Estimated", isFallback := true }

/-- Meters-to-miles conversion and rounding of api.js line 115:
`Math.round(route.distanceMeters * 0.000621371)`, i.e. rounding the fraction
`distanceMeters * 621371 / 1000000000`. -/
def milesOfMeters (distanceMeters : Int) : Int :=
  jsRoundDiv (distanceMeters * 621371) 1000000000

/-- api.js lines 69-126, `API.getDriveTimes`, with the awaited fetch made an
explicit `Except` input: a thrown error is caught and answered with the
fallback; a response with no `routes` or an empty `routes` array throws
`No routes found`, also caught; otherwise the first route is converted
(`minutes = Math.round(duration / 60)`; `description` falls back to the
empty string). -/
def getDriveTimes (fetched : Except String RoutesResponse) : DriveTime :=
  match fetched with
  | .error _ => getFallbackDriveTime
  | .ok data =>
    match data.routes with
    | some (route :: _) =>
      { minutes := jsRoundDiv route.duration 60
        distance := milesOfMeters route.distanceMeters
        description := (jsOrStr route.description (some "")).getD ""
        isFallback := false }
    | _ => getFallbackDriveTime

/-! Section: server.js — `getTrainPosition` (track-position mapping, lines 1063-1091) -/

/-- A live vehicle fix; either coordinate may be absent. -/
structure VehicleFix where
  latitude : Option ℝ
  longitude : Option ℝ

/-- One entry of `stationConfigs` (server.js lines 1038-1056): G-line and
B-line entries carry no coordinates (`lat = lng = none`). -/
structure TrackStation where
  id : String
  name : String
  lat : Option ℝ
  lng : Option ℝ
  pos : ℝ

/-- JS falsiness of a possibly-undefined numeric value: `!x` holds exactly
when `x` is undefined or `0`. -/
def falsyNum (x : Option ℝ) : Prop := x = none ∨ x = some 0

noncomputable instance (x : Option ℝ) : Decidable (falsyNum x) :=
  inferInstanceAs (Decidable (x = none ∨ x = some 0))

/-- One element of the `distances` array (server.js lines 1072-1077):
a station, its index, and the planar distance from the fix. -/
structure DistEntry where
  station : TrackStation
  idx : Nat
  dist : ℝ

/-- Comparator of `distances.sort((a, b) => a.dist - b.dist)`
(server.js line 1079). -/
def distLe (a b : DistEntry) : Prop := a.dist ≤ b.dist

noncomputable instance : DecidableRel distLe := fun a b =>
  inferInstanceAs (Decidable (a.dist ≤ b.dist))

instance : IsTotal DistEntry distLe := ⟨fun _ _ => le_total _ _⟩

instance : IsTrans DistEntry distLe := ⟨fun _ _ _ => le_trans⟩

/-- The `distances` array of server.js lines 1072-1077: each station with its
index and the planar Euclidean distance
`Math.sqrt(latDiff * latDiff + lngDiff * lngDiff)` from the fix. -/
noncomputable def distEntries (tlat tlng : ℝ) (stations : List TrackStation) :
    List DistEntry :=
  stations.enum.map (fun p =>
    DistEntry.mk p.2 p.1
      (Real.sqrt ((tlat - p.2.lat.getD 0) ^ 2 + (tlng - p.2.lng.getD 0) ^ 2)))

/-- server.js lines 1086-1090 on the index-ordered pair (`station1` is the
lower-indexed of the two nearest): `ratio = station1.dist / totalDist`,
`position = pos1 + (pos2 - pos1) * ratio`, clamped by
`Math.max(1, Math.min(99, position))`.  When `totalDist` is `0` the ratio is
`0 / 0 = NaN`, the clamp of NaN is NaN, modelled `none`. -/
noncomputable def interpolate (s1 s2 : DistEntry) : Option ℝ :=
  if s1.dist + s2.dist = 0 then none
  else
    some (max 1 (min 99
      (s1.station.pos +
        (s2.station.pos - s1.station.pos) * (s1.dist / (s1.dist + s2.dist)))))

/-- server.js lines 1063-1091.  Result `none` models a non-numeric outcome:
the TypeError thrown by `stations[0].lat` on an empty list, the NaN produced
by a zero total distance, and the engine-dependent NaN propagation when some
station after the first lacks coordinates (its distance is NaN, making the
sort order unspecified).  Otherwise: compute the distance to every station,
sort ascending (stably), take the two nearest, order that pair by station
index, interpolate and clamp. -/
noncomputable def getTrainPosition (stations : List TrackStation) (v : VehicleFix) :
    Option ℝ :=
  if falsyNum v.latitude ∨ falsyNum v.longitude then some 50
  else
    match stations with
    | [] => none
    | s0 :: _ =>
      if falsyNum s0.lat then some 50
      else if ∀ s ∈ stations, s.lat ≠ none ∧ s.lng ≠ none then
        match List.insertionSort distLe
          (distEntries (v.latitude.getD 0) (v.longitude.getD 0) stations) with
        | c :: sc :: _ =>
          if c.idx < sc.idx then interpolate c sc else interpolate sc c
        | _ => none
      else none

/-- The N-line entry of `stationConfigs` (server.js lines 1039-1044). -/
noncomputable def stations117N : List TrackStation :=
  [⟨"34668", "Union", some 39.7539, some (-105.0000), 3⟩,
   ⟨"35246", "48th", some 39.7809, some (-104.9693), 25⟩,
   ⟨"35254", "112th", some 39.9158, some (-104.9872), 70⟩,
   ⟨"35365", "124th", some 39.9308, some (-104.9900), 97⟩]

/-- The G-line entry of `stationConfigs` (server.js lines 1045-1050):
no coordinates. -/
def stations113G : List TrackStation :=
  [⟨"34781", "Union", none, none, 5⟩,
   ⟨"34544", "Pecos", none, none, 35⟩,
   ⟨"34541", "Olde Town", none, none, 70⟩,
   ⟨"34510", "Ward", none, none, 95⟩]

/-- The B-line entry of `stationConfigs` (server.js lines 1051-1055):
no coordinates. -/
def stations113B : List TrackStation :=
  [⟨"34782", "Union", none, none, 5⟩,
   ⟨"34544", "Pecos", none, none, 50⟩,
   ⟨"34560", "Westminster", none, none, 95⟩]

/-! Section: Concrete sample data used by witnesses and counterexamples -/

/-- A JSON arrival on route 117N arriving at epoch second 600. -/
def entryA : JsonArrival := ⟨some "117N", some 0, some "trip-a", some 600, none, none, none⟩

/-- A JSON arrival on a different route (113G). -/
def entryB : JsonArrival := ⟨some "113G", some 0, some "trip-b", some 300, none, none, none⟩

/-- A JSON arrival on route 117N that carries only a departure time. -/
def entryDep : JsonArrival := ⟨some "117N", some 1, some "trip-d", none, some 1000, none, none⟩

/-- The Eastlake northern-terminus entry of `nLinePlatforms`: one platform,
declared for southbound only. -/
def cfgEastlake : NLinePlatformConfig := ⟨["35365"], ["southbound"]⟩

/-- A normalized arrival used in the C4 witness. -/
def arrival4 : MergedArrival := ⟨some 120, none, some "117N", some 1, some "trip-s", some 2⟩

/-- Per-platform fetch results where every platform reports one southbound
arrival. -/
def dataOf4 : String → DirectionLists := fun _ => ⟨[], [arrival4]⟩

/-- The 112th-Ave entry of `nLinePlatforms`: two platforms, both
directions. -/
def cfg112 : NLinePlatformConfig := ⟨["35254", "35255"], ["northbound", "southbound"]⟩

/-- A normalized northbound arrival used for the C6 data. -/
def arrival6 : MergedArrival := ⟨some 100, none, some "117N", some 0, some "trip-n", some 5⟩

/-- Per-platform fetch results where every platform reports three northbound
arrivals — exactly what a `getLineArrivals` result capped at 3 can supply. -/
def dataOf6 : String → DirectionLists := fun _ => ⟨[arrival6, arrival6, arrival6], []⟩

/-- Per-platform fetch results with one northbound arrival per platform. -/
def dataOf6w : String → DirectionLists := fun _ => ⟨[arrival6], []⟩

/-- Scenario B of the spec: one trip with one stop-time update at stop 34781
carrying arrival time `T + 300`, and one stop-time update at the same stop
with no arrival (only a departure). -/
def scenarioFeed (T : Int) : FeedMessage :=
  { header := ⟨T⟩
    entity := [⟨some { trip := ⟨some "113G", some "t1", some 0⟩
                       stopTimeUpdate :=
                         [⟨some "34781", some ⟨some (T + 300)⟩, none⟩,
                          ⟨some "34781", none, some ⟨some (T + 600)⟩⟩] }⟩] }

/-- Two track stations with identical finite coordinates. -/
def cexStations : List TrackStation :=
  [⟨"cexA", "cexA", some 1, some 1, 20⟩, ⟨"cexB", "cexB", some 1, some 1, 70⟩]

/-- A vehicle fix sitting exactly on the shared coordinates of
`cexStations`. -/
def cexVehicle : VehicleFix := ⟨some 1, some 1⟩

/-- Two track stations with distinct finite coordinates. -/
def witStations : List TrackStation :=
  [⟨"witA", "witA", some 1, some 2, 3⟩, ⟨"witB", "witB", some 1, some 3, 25⟩]

/-- A vehicle fix with finite coordinates. -/
def witVehicle : VehicleFix := ⟨some 1, some 2⟩

/-- A track station without coordinates, like every G-line and B-line
config entry. -/
def station10 : TrackStation := ⟨"w10", "w10", none, none, 5⟩

/-- A vehicle fix with present, nonzero coordinates. -/
def vehicle10 : VehicleFix := ⟨some 1, some 1⟩

/-! Section: Helper lemmas -/

/-- The integer rounding used throughout is exactly
`Math.round (num / den)` for a positive denominator: round half up. -/
theorem jsRoundDiv_eq_floor (num : Int) (den : Nat) (h : 0 < den) :
    jsRoundDiv num den = ⌊(num : ℚ) / (den : ℚ) + 1 / 2⌋ := by
  have hden : ((den : ℚ)) ≠ 0 := by exact_mod_cast h.ne'
  have hq : (num : ℚ) / (den : ℚ) + 1 / 2 =
      ((2 * num + den : Int) : ℚ) / ((2 * den : Nat) : ℚ) := by
    push_cast
    field_simp
    ring
  rw [jsRoundDiv, hq, Rat.floor_intCast_div_natCast]
  rfl

/-- Membership in a `normalize` result inverted back to the input list. -/
theorem mem_normalize_iff {entries : List JsonArrival} {routeId : String} {nowMs : Int}
    {r : MergedArrival} :
    r ∈ normalize entries routeId nowMs ↔
      ∃ e ∈ entries, e.routeId = some routeId ∧ r = normalizeEntry nowMs e := by
  unfold normalize
  rw [(List.perm_insertionSort timeLe _).mem_iff]
  simp only [List.mem_map, List.mem_filter, beq_iff_eq]
  constructor
  · rintro ⟨e, ⟨he, hroute⟩, rfl⟩
    exact ⟨e, he, hroute, rfl⟩
  · rintro ⟨e, he, hroute, rfl⟩
    exact ⟨e, ⟨he, hroute⟩, rfl⟩

/-- A list sorted by the `timeLe` comparator is non-decreasing in the actual
epoch times carried by the records. -/
theorem sorted_timeLe_pairwise {l : List MergedArrival} (h : List.Sorted timeLe l) :
    l.Pairwise (fun a b => ∀ x ∈ a.time, ∀ y ∈ b.time, x ≤ y) := by
  refine h.imp ?_
  intro a b hab x hx y hy
  have hx' : a.time = some x := hx
  have hy' : b.time = some y := hy
  simpa [timeLe, hx', hy'] using hab

/-! Section: Claim theorems -/

/-- C2: for every list of JSON arrival entries and requested route id, the
normalization step's output contains only records whose `routeId` equals the
requested value; entries with a different route are dropped (total function,
no error). -/
theorem normalize_route_filter (entries : List JsonArrival) (routeId : String) (nowMs : Int) :
    ∀ r ∈ normalize entries routeId nowMs, r.routeId = some routeId := by
  intro r hr
  obtain ⟨e, -, hroute, rfl⟩ := mem_normalize_iff.mp hr
  exact hroute

theorem normalize_route_filter_witness :
    (normalizeEntry 0 entryA).routeId = some "117N" :=
  normalize_route_filter [entryA, entryB] "117N" 0 (normalizeEntry 0 entryA) (by decide)

/-- C3 (amended): every normalized record's epoch `time` is the entry's
`arrivalTime` with fallback to `departureTime`, but `minutesAway` is computed
from `arrivalTime` alone — `Math.round((arrivalTime - now) / 60)`, unclamped
(negative values preserved) — and is NaN (`none`) when `arrivalTime` is
absent, with no `departureTime` fallback. -/
theorem normalize_time_minutes (entries : List JsonArrival) (routeId : String) (nowMs : Int) :
    ∀ r ∈ normalize entries routeId nowMs,
      ∃ e ∈ entries, e.routeId = some routeId ∧
        r.time = jsOrNum e.arrivalTime e.departureTime ∧
        r.minutesAway = e.arrivalTime.map (fun t => jsRoundDiv (1000 * t - nowMs) 60000) := by
  intro r hr
  obtain ⟨e, hmem, hroute, rfl⟩ := mem_normalize_iff.mp hr
  exact ⟨e, hmem, hroute, rfl, rfl⟩

theorem normalize_time_minutes_witness :
    ∃ e ∈ [entryA], e.routeId = some "117N" ∧
      (normalizeEntry 36600000 entryA).time = jsOrNum e.arrivalTime e.departureTime ∧
      (normalizeEntry 36600000 entryA).minutesAway =
        e.arrivalTime.map (fun t => jsRoundDiv (1000 * t - 36600000) 60000) :=
  normalize_time_minutes [entryA] "117N" 36600000 (normalizeEntry 36600000 entryA) (by decide)

/-- C3 counterexample: for an entry with only a `departureTime`, the record's
epoch time falls back to the departure time, but `minutesAway` is NaN
(`none`), not `round((time - now) / 60)` as the claim states. -/
theorem normalize_minutes_cex :
    ¬ (∀ r ∈ normalize [entryDep] "117N" 0,
        r.minutesAway = r.time.map (fun t => jsRoundDiv (1000 * t - 0) 60000)) := by
  decide

/-- C5: both aggregated per-direction lists produced by
`App.fetchTransitData` (concatenate across platforms, re-sort by `time`) are
non-decreasing in epoch arrival time. -/
theorem fetchStationData_sorted (cfg : NLinePlatformConfig) (dataOf : String → DirectionLists) :
    ((fetchStationData cfg dataOf).northbound.Pairwise fun a b =>
        ∀ x ∈ a.time, ∀ y ∈ b.time, x ≤ y) ∧
    ((fetchStationData cfg dataOf).southbound.Pairwise fun a b =>
        ∀ x ∈ a.time, ∀ y ∈ b.time, x ≤ y) :=
  ⟨sorted_timeLe_pairwise (List.sorted_insertionSort timeLe _),
   sorted_timeLe_pairwise (List.sorted_insertionSort timeLe _)⟩

/-- C8: the rendered status label agrees with the spec's fixed thresholds on
the raw `minutesAway` for every integer value — the display clamp
`Math.max(0, minutesAway)` never changes which threshold branch is taken. -/
theorem renderStatus_thresholds : ∀ m : Int, renderStatus m = specStatus m := by
  intro m
  simp only [renderStatus, specStatus]
  split_ifs <;> first | rfl | omega

/-- C9: a thrown route-provider call, an absent `routes` field, and an empty
`routes` array all make `getDriveTimes` return the fixed fallback record
rather than propagate the error. -/
theorem getDriveTimes_fallback :
    (∀ e : String, getDriveTimes (Except.error e) = getFallbackDriveTime) ∧
    getDriveTimes (Except.ok ⟨none⟩) = getFallbackDriveTime ∧
    getDriveTimes (Except.ok ⟨some []⟩) = getFallbackDriveTime ∧
    getFallbackDriveTime =
      { minutes := 30, distance := 15, description := "Estimated", isFallback := true } :=
  ⟨fun _ => rfl, rfl, rfl, rfl⟩

/-- Accumulating a pair of lists over a fold is appending the concatenations
of the per-platform contributions. -/
theorem foldl_pair_append (f g : String → List MergedArrival) (pids : List String) :
    ∀ acc : List MergedArrival × List MergedArrival,
      pids.foldl (fun acc pid => (acc.1 ++ f pid, acc.2 ++ g pid)) acc =
        (acc.1 ++ pids.flatMap f, acc.2 ++ pids.flatMap g) := by
  induction pids with
  | nil => intro acc; simp
  | cons p ps ih =>
    intro acc
    simp only [List.foldl_cons, List.flatMap_cons]
    rw [ih]
    simp [List.append_assoc]

/-- The aggregation loop of `App.fetchTransitData` in closed form. -/
theorem fetchStationData_eq (cfg : NLinePlatformConfig) (dataOf : String → DirectionLists) :
    fetchStationData cfg dataOf =
      { northbound := List.insertionSort timeLe (cfg.platforms.flatMap fun p =>
          if "northbound" ∈ cfg.directions then (dataOf p).northbound else [])
        southbound := List.insertionSort timeLe (cfg.platforms.flatMap fun p =>
          if "southbound" ∈ cfg.directions then (dataOf p).southbound else []) } := by
  unfold fetchStationData
  rw [foldl_pair_append
        (fun p => if "northbound" ∈ cfg.directions then (dataOf p).northbound else [])
        (fun p => if "southbound" ∈ cfg.directions then (dataOf p).southbound else [])]
  simp

/-- C4: the aggregation includes a platform's arrivals only for the
directions the station's platform configuration declares; every aggregated
arrival traces back to a fetched platform of the configuration, and with
`northbound` undeclared (a southbound-only terminus such as Eastlake) the
aggregated northbound list is empty no matter what the platforms report. -/
theorem fetchStationData_direction_exclusion (cfg : NLinePlatformConfig)
    (dataOf : String → DirectionLists) :
    (∀ a ∈ (fetchStationData cfg dataOf).northbound,
        "northbound" ∈ cfg.directions ∧ ∃ p ∈ cfg.platforms, a ∈ (dataOf p).northbound) ∧
    (∀ a ∈ (fetchStationData cfg dataOf).southbound,
        "southbound" ∈ cfg.directions ∧ ∃ p ∈ cfg.platforms, a ∈ (dataOf p).southbound) ∧
    ("northbound" ∉ cfg.directions → (fetchStationData cfg dataOf).northbound = []) := by
  rw [fetchStationData_eq]
  refine ⟨?_, ?_, ?_⟩
  · intro a ha
    have ha' := (List.perm_insertionSort timeLe _).subset ha
    obtain ⟨p, hp, hap⟩ := List.mem_flatMap.mp ha'
    by_cases hdir : "northbound" ∈ cfg.directions
    · rw [if_pos hdir] at hap
      exact ⟨hdir, p, hp, hap⟩
    · rw [if_neg hdir] at hap
      exact absurd hap (List.not_mem_nil a)
  · intro a ha
    have ha' := (List.perm_insertionSort timeLe _).subset ha
    obtain ⟨p, hp, hap⟩ := List.mem_flatMap.mp ha'
    by_cases hdir : "southbound" ∈ cfg.directions
    · rw [if_pos hdir] at hap
      exact ⟨hdir, p, hp, hap⟩
    · rw [if_neg hdir] at hap
      exact absurd hap (List.not_mem_nil a)
  · intro hdir
    have hnil : (cfg.platforms.flatMap fun _ => ([] : List MergedArrival)) = [] := by
      induction cfg.platforms with
      | nil => rfl
      | cons p ps ih => simp [ih]
    simp only [if_neg hdir, hnil]
    rfl

theorem fetchStationData_direction_exclusion_witness :
    (fetchStationData cfgEastlake dataOf4).northbound = [] :=
  (fetchStationData_direction_exclusion cfgEastlake dataOf4).2.2 (by decide)

/-- Concatenating per-platform lists each of length at most `k` yields at
most `k` entries per platform. -/
theorem flatMap_length_le (k : Nat) (f : String → List MergedArrival) (pids : List String)
    (h : ∀ p, (f p).length ≤ k) : (pids.flatMap f).length ≤ k * pids.length := by
  induction pids with
  | nil => simp
  | cons p ps ih =>
    simp only [List.flatMap_cons, List.length_append, List.length_cons]
    calc (f p).length + (ps.flatMap f).length ≤ k + k * ps.length :=
          Nat.add_le_add (h p) ih
      _ = k * (ps.length + 1) := by ring

/-- C6 (amended): each per-platform direction list is capped at 3 by
`API.getLineArrivals` (`slice(0, 3)`), but the multi-platform aggregation of
`App.fetchTransitData` does not re-cap after merging: the aggregated bound is
3 arrivals per platform of the station — up to 6 for a two-platform N-line
station — not 3 per direction. -/
theorem direction_list_caps :
    (∀ arrivals : List MergedArrival,
        (getLineArrivals arrivals).northbound.length ≤ 3 ∧
        (getLineArrivals arrivals).southbound.length ≤ 3) ∧
    (∀ (cfg : NLinePlatformConfig) (dataOf : String → DirectionLists),
        (∀ p : String, (dataOf p).northbound.length ≤ 3 ∧ (dataOf p).southbound.length ≤ 3) →
        (fetchStationData cfg dataOf).northbound.length ≤ 3 * cfg.platforms.length ∧
        (fetchStationData cfg dataOf).southbound.length ≤ 3 * cfg.platforms.length) := by
  constructor
  · intro arrivals
    constructor <;>
      · simp only [getLineArrivals, List.length_take]
        exact min_le_left _ _
  · intro cfg dataOf h
    rw [fetchStationData_eq]
    constructor
    · refine le_trans (le_of_eq (List.perm_insertionSort timeLe _).length_eq) ?_
      refine flatMap_length_le 3 _ _ ?_
      intro p
      by_cases hdir : "northbound" ∈ cfg.directions
      · rw [if_pos hdir]; exact (h p).1
      · rw [if_neg hdir]; exact Nat.zero_le 3
    · refine le_trans (le_of_eq (List.perm_insertionSort timeLe _).length_eq) ?_
      refine flatMap_length_le 3 _ _ ?_
      intro p
      by_cases hdir : "southbound" ∈ cfg.directions
      · rw [if_pos hdir]; exact (h p).2
      · rw [if_neg hdir]; exact Nat.zero_le 3

theorem direction_list_caps_witness :
    (fetchStationData cfg112 dataOf6w).northbound.length ≤ 3 * cfg112.platforms.length ∧
    (fetchStationData cfg112 dataOf6w).southbound.length ≤ 3 * cfg112.platforms.length :=
  direction_list_caps.2 cfg112 dataOf6w (fun _ => ⟨by simp [dataOf6w], by simp [dataOf6w]⟩)

/-- C6 counterexample: the two-platform 112th-Ave station with each platform
reporting a full cap of 3 northbound arrivals (achievable, since
`getLineArrivals` returns up to 3 per platform) aggregates to a northbound
list of 6 entries, refuting the claimed cap of 3 after aggregation. -/
theorem direction_list_caps_cex :
    ¬ ((fetchStationData cfg112 dataOf6).northbound.length ≤ 3) := by
  decide

/-- The inner GTFS-RT loop (over the stop-time updates of one trip) pushes
exactly the records `stopUpdateArrival` yields. -/
theorem glineInner_foldl (sid : String) (trip : TripDescriptor) (sus : List StopTimeUpdate) :
    ∀ acc : List GlineArrival,
      sus.foldl (fun acc2 su =>
        match stopUpdateArrival sid trip su with
        | some r => acc2 ++ [r]
        | none => acc2) acc =
      acc ++ sus.filterMap (stopUpdateArrival sid trip) := by
  induction sus with
  | nil => intro acc; simp
  | cons su rest ih =>
    intro acc
    simp only [List.foldl_cons, List.filterMap_cons]
    cases h : stopUpdateArrival sid trip su <;> simp [h, ih]

/-- The GTFS-RT double loop in closed form: one pass of `stopUpdateArrival`
over all (trip, stop-time update) pairs of the feed, in feed order. -/
theorem glineDecodeLoop_eq (feed : FeedMessage) (sid : String) :
    glineDecodeLoop feed sid =
      (allStopUpdates feed).filterMap (fun p => stopUpdateArrival sid p.1 p.2) := by
  unfold glineDecodeLoop allStopUpdates
  suffices h : ∀ (es : List FeedEntity) (acc : List GlineArrival),
      es.foldl (fun acc e =>
        match e.tripUpdate with
        | some tu =>
          tu.stopTimeUpdate.foldl (fun acc2 su =>
            match stopUpdateArrival sid tu.trip su with
            | some r => acc2 ++ [r]
            | none => acc2) acc
        | none => acc) acc =
      acc ++ (es.flatMap fun e =>
        match e.tripUpdate with
        | some tu => tu.stopTimeUpdate.map fun su => (tu.trip, su)
        | none => []).filterMap (fun p => stopUpdateArrival sid p.1 p.2) by
    simpa using h feed.entity []
  intro es
  induction es with
  | nil => intro acc; simp
  | cons e rest ih =>
    intro acc
    cases htu : e.tripUpdate with
    | none => simp [htu, ih]
    | some tu =>
      simp only [List.foldl_cons, htu, List.flatMap_cons, List.filterMap_append]
      rw [glineInner_foldl, ih]
      simp only [List.filterMap_map, List.append_assoc]
      rfl

/-- The guard of the GTFS-RT push, as a boolean on the stop-time update:
stop id matches and an arrival time is present. -/
theorem stopUpdateArrival_isSome (sid : String) (trip : TripDescriptor) (su : StopTimeUpdate) :
    (stopUpdateArrival sid trip su).isSome =
      (su.stopId == some sid && (su.arrival.bind StopTimeEvent.time).isSome) := by
  unfold stopUpdateArrival
  by_cases h : su.stopId = some sid
  · rw [if_pos h, h]
    cases ha : su.arrival with
    | none => simp
    | some ev =>
      cases ht : ev.time with
      | none => simp [ht]
      | some t => simp [ht]
  · rw [if_neg h]
    have hne : (su.stopId == some sid) = false := by
      simpa using h
    simp [hne]

/-- Inversion of one step of the GTFS-RT push. -/
theorem stopUpdateArrival_eq_some {sid : String} {trip : TripDescriptor}
    {su : StopTimeUpdate} {r : GlineArrival} :
    stopUpdateArrival sid trip su = some r ↔
      su.stopId = some sid ∧
        ∃ t, su.arrival.bind StopTimeEvent.time = some t ∧ r = mkGlineArrival trip sid t := by
  unfold stopUpdateArrival
  by_cases h : su.stopId = some sid
  · rw [if_pos h]
    cases su.arrival with
    | none => simp [h]
    | some ev =>
      obtain ⟨evt⟩ := ev
      cases evt with
      | none => simp [h]
      | some t => simp [h, eq_comm]
  · rw [if_neg h]
    simp [h]

/-- The length of a `filterMap` counts the inputs on which the function
fires. -/
theorem length_filterMap_eq_countP {α β : Type} (f : α → Option β) (l : List α) :
    (l.filterMap f).length = l.countP (fun a => (f a).isSome) := by
  induction l with
  | nil => rfl
  | cons a l ih =>
    cases h : f a with
    | none => simp [List.filterMap_cons, h, List.countP_cons, ih]
    | some b => simp [List.filterMap_cons, h, List.countP_cons, ih]

/-- C1: the G-line decode emits exactly one record per stop-time update whose
stop id equals the requested platform and whose arrival time is present
(its `arrivalTime` being that time), and nothing for updates lacking an
arrival time; in particular the Scenario-B feed (one update at the target
stop with arrival `T + 300`, one update there with no arrival) decodes to
exactly one record with `arrivalTime = T + 300`. -/
theorem gline_decode_correct :
    (∀ (feed : FeedMessage) (sid : String),
      (glineArrivals feed sid).length =
        (allStopUpdates feed).countP
          (fun p => p.2.stopId == some sid && (p.2.arrival.bind StopTimeEvent.time).isSome) ∧
      ∀ r ∈ glineArrivals feed sid,
        ∃ p ∈ allStopUpdates feed,
          p.2.stopId = some sid ∧
          p.2.arrival.bind StopTimeEvent.time = some r.arrivalTime ∧
          r = mkGlineArrival p.1 sid r.arrivalTime) ∧
    (∀ T : Int,
      glineArrivals (scenarioFeed T) "34781" =
        [{ routeId := some "113G", tripId := some "t1", directionId := 0,
           arrivalTime := T + 300, stopId := "34781" }]) := by
  refine ⟨fun feed sid => ⟨?_, ?_⟩, ?_⟩
  · rw [glineArrivals, (List.perm_insertionSort glineLe _).length_eq, glineDecodeLoop_eq,
      length_filterMap_eq_countP]
    exact List.countP_congr (fun p _ => by rw [stopUpdateArrival_isSome sid p.1 p.2])
  · intro r hr
    have hr' : r ∈ glineDecodeLoop feed sid :=
      (List.perm_insertionSort glineLe _).subset hr
    rw [glineDecodeLoop_eq] at hr'
    obtain ⟨p, hp, hsome⟩ := List.mem_filterMap.mp hr'
    obtain ⟨hstop, t, hbind, rfl⟩ := stopUpdateArrival_eq_some.mp hsome
    exact ⟨p, hp, hstop, hbind, rfl⟩
  · intro T
    rfl

theorem gline_decode_correct_witness :
    ∃ p ∈ allStopUpdates (scenarioFeed 1000),
      p.2.stopId = some "34781" ∧
      p.2.arrival.bind StopTimeEvent.time =
        some (GlineArrival.mk (some "113G") (some "t1") 0 1300 "34781").arrivalTime ∧
      GlineArrival.mk (some "113G") (some "t1") 0 1300 "34781" =
        mkGlineArrival p.1 "34781"
          (GlineArrival.mk (some "113G") (some "t1") 0 1300 "34781").arrivalTime :=
  (gline_decode_correct.1 (scenarioFeed 1000) "34781").2
    (GlineArrival.mk (some "113G") (some "t1") 0 1300 "34781") (by decide)

/-- A nonzero total distance makes the interpolation yield a clamped value in
the interval [1, 99]. -/
theorem interpolate_bounds {s1 s2 : DistEntry} (h : s1.dist + s2.dist ≠ 0) :
    ∃ x, interpolate s1 s2 = some x ∧ 1 ≤ x ∧ x ≤ 99 := by
  unfold interpolate
  rw [if_neg h]
  exact ⟨_, rfl, le_max_left _ _, max_le (by norm_num) (min_le_left _ _)⟩

/-- The distance list has one entry per station. -/
theorem distEntries_length (tlat tlng : ℝ) (stations : List TrackStation) :
    (distEntries tlat tlng stations).length = stations.length := by
  simp [distEntries]

/-- Every distance entry records the station at its index together with the
planar distance from the fix to that station's (present-or-defaulted)
coordinates. -/
theorem distEntries_station {tlat tlng : ℝ} {stations : List TrackStation} {d : DistEntry}
    (hd : d ∈ distEntries tlat tlng stations) :
    ∃ _h : d.idx < stations.length,
      d.station = stations[d.idx] ∧
      d.dist = Real.sqrt
        ((tlat - d.station.lat.getD 0) ^ 2 + (tlng - d.station.lng.getD 0) ^ 2) := by
  obtain ⟨p, hp, rfl⟩ := List.mem_map.mp hd
  obtain ⟨hlt, hget⟩ := List.getElem?_eq_some.mp (List.mem_enum_iff_getElem?.mp hp)
  exact ⟨hlt, hget.symm, rfl⟩

/-- The indices of the distance entries are pairwise distinct. -/
theorem distEntries_idx_nodup (tlat tlng : ℝ) (stations : List TrackStation) :
    ((distEntries tlat tlng stations).map DistEntry.idx).Nodup := by
  have h : (distEntries tlat tlng stations).map DistEntry.idx =
      stations.enum.map Prod.fst := by
    simp only [distEntries, List.map_map]
    rfl
  rw [h, List.enum_map_fst]
  exact List.nodup_range _

/-- A vanishing planar distance forces the (defaulted) station coordinates to
coincide with the fix. -/
theorem coords_eq_of_dist_zero {tlat tlng : ℝ} {s : TrackStation}
    (hd : Real.sqrt ((tlat - s.lat.getD 0) ^ 2 + (tlng - s.lng.getD 0) ^ 2) = 0) :
    s.lat.getD 0 = tlat ∧ s.lng.getD 0 = tlng := by
  have hle := Real.sqrt_eq_zero'.mp hd
  have ha2 : (tlat - s.lat.getD 0) ^ 2 = 0 :=
    le_antisymm (by nlinarith [sq_nonneg (tlng - s.lng.getD 0)]) (sq_nonneg _)
  have hb2 : (tlng - s.lng.getD 0) ^ 2 = 0 :=
    le_antisymm (by nlinarith [sq_nonneg (tlat - s.lat.getD 0)]) (sq_nonneg _)
  have ha := sub_eq_zero.mp ((pow_eq_zero_iff two_ne_zero).mp ha2)
  have hb := sub_eq_zero.mp ((pow_eq_zero_iff two_ne_zero).mp hb2)
  exact ⟨ha.symm, hb.symm⟩

/-- Any falsy guard input (absent or zero vehicle coordinate, or falsy
latitude on the first station) short-circuits to the fixed midpoint 50. -/
theorem getTrainPosition_fallback50 (s0 : TrackStation) (rest : List TrackStation)
    (v : VehicleFix)
    (h : falsyNum v.latitude ∨ falsyNum v.longitude ∨ falsyNum s0.lat) :
    getTrainPosition (s0 :: rest) v = some 50 := by
  unfold getTrainPosition
  by_cases hv : falsyNum v.latitude ∨ falsyNum v.longitude
  · rw [if_pos hv]
  · rw [if_neg hv]
    have h0 : falsyNum s0.lat := by
      rcases h with h | h | h
      · exact absurd (Or.inl h) hv
      · exact absurd (Or.inr h) hv
      · exact h
    dsimp only
    rw [if_pos h0]

/-- C7 (amended): for every vehicle fix and every station list of at least
two stations, all carrying coordinates with pairwise-distinct coordinate
pairs, the mapping returns a value in [1, 99]; and whenever a vehicle
coordinate or the first station's latitude is absent (or zero, which JS also
treats as falsy), it returns exactly 50.  Without the distinctness proviso
the claim fails: two coincident stations under the fix make the ratio
`0 / 0 = NaN` (see the counterexample). -/
theorem getTrainPosition_bounds :
    (∀ (stations : List TrackStation) (v : VehicleFix),
        2 ≤ stations.length →
        (∀ s ∈ stations, s.lat ≠ none ∧ s.lng ≠ none) →
        stations.Pairwise (fun a b => ¬(a.lat = b.lat ∧ a.lng = b.lng)) →
        ∃ x, getTrainPosition stations v = some x ∧ 1 ≤ x ∧ x ≤ 99) ∧
    (∀ (s0 : TrackStation) (rest : List TrackStation) (v : VehicleFix),
        falsyNum v.latitude ∨ falsyNum v.longitude ∨ falsyNum s0.lat →
        getTrainPosition (s0 :: rest) v = some 50) := by
  constructor
  · intro stations v h2 hall hdist
    unfold getTrainPosition
    by_cases hv : falsyNum v.latitude ∨ falsyNum v.longitude
    · rw [if_pos hv]
      exact ⟨50, rfl, by norm_num, by norm_num⟩
    · rw [if_neg hv]
      cases stations with
      | nil => simp at h2
      | cons s0 tail =>
        dsimp only
        by_cases h0 : falsyNum s0.lat
        · rw [if_pos h0]
          exact ⟨50, rfl, by norm_num, by norm_num⟩
        · rw [if_neg h0, if_pos hall]
          set tlat := v.latitude.getD 0 with htlat
          set tlng := v.longitude.getD 0 with htlng
          set dl := distEntries tlat tlng (s0 :: tail) with hdl
          have hlen : (List.insertionSort distLe dl).length = (s0 :: tail).length := by
            rw [(List.perm_insertionSort distLe dl).length_eq, hdl, distEntries_length]
          have h2' : 2 ≤ (s0 :: tail).length := h2
          rcases hs : List.insertionSort distLe dl with _ | ⟨c, _ | ⟨sc, rest⟩⟩
          · rw [hs] at hlen
            simp at hlen
          · rw [hs] at hlen
            simp only [List.length_cons, List.length_nil] at hlen h2'
            omega
          · dsimp only
            have hperm := List.perm_insertionSort distLe dl
            have hcmem : c ∈ dl := hperm.subset (by rw [hs]; exact List.mem_cons_self _ _)
            have hscmem : sc ∈ dl :=
              hperm.subset (by rw [hs]; exact List.mem_cons_of_mem _ (List.mem_cons_self _ _))
            have hidxne : c.idx ≠ sc.idx := by
              have hnd : ((List.insertionSort distLe dl).map DistEntry.idx).Nodup :=
                (hperm.map DistEntry.idx).nodup_iff.mpr (distEntries_idx_nodup _ _ _)
              rw [hs] at hnd
              obtain ⟨hnotmem, -⟩ := List.nodup_cons.mp hnd
              exact fun he => hnotmem (by simp [he])
            obtain ⟨hclt, hcst, hcd⟩ := distEntries_station hcmem
            obtain ⟨hsclt, hscst, hscd⟩ := distEntries_station hscmem
            have hcnn : 0 ≤ c.dist := by rw [hcd]; exact Real.sqrt_nonneg _
            have hscnn : 0 ≤ sc.dist := by rw [hscd]; exact Real.sqrt_nonneg _
            have htot : c.dist + sc.dist ≠ 0 := by
              intro h0'
              have hc0 : c.dist = 0 := by linarith
              have hsc0 : sc.dist = 0 := by linarith
              rw [hcd] at hc0
              rw [hscd] at hsc0
              obtain ⟨hclat0, hclng0⟩ := coords_eq_of_dist_zero hc0
              obtain ⟨hsclat0, hsclng0⟩ := coords_eq_of_dist_zero hsc0
              have hclatS : c.station.lat = some tlat := by
                obtain ⟨hne, -⟩ := hall c.station (by rw [hcst]; exact List.getElem_mem hclt)
                rcases hlat : c.station.lat with _ | la
                · exact absurd hlat hne
                · rw [hlat] at hclat0
                  simp only [Option.getD_some] at hclat0
                  rw [hclat0]
              have hclngS : c.station.lng = some tlng := by
                obtain ⟨-, hne⟩ := hall c.station (by rw [hcst]; exact List.getElem_mem hclt)
                rcases hlng : c.station.lng with _ | ln
                · exact absurd hlng hne
                · rw [hlng] at hclng0
                  simp only [Option.getD_some] at hclng0
                  rw [hclng0]
              have hsclatS : sc.station.lat = some tlat := by
                obtain ⟨hne, -⟩ := hall sc.station (by rw [hscst]; exact List.getElem_mem hsclt)
                rcases hlat : sc.station.lat with _ | la
                · exact absurd hlat hne
                · rw [hlat] at hsclat0
                  simp only [Option.getD_some] at hsclat0
                  rw [hsclat0]
              have hsclngS : sc.station.lng = some tlng := by
                obtain ⟨-, hne⟩ := hall sc.station (by rw [hscst]; exact List.getElem_mem hsclt)
                rcases hlng : sc.station.lng with _ | ln
                · exact absurd hlng hne
                · rw [hlng] at hsclng0
                  simp only [Option.getD_some] at hsclng0
                  rw [hsclng0]
              rw [hcst] at hclatS hclngS
              rw [hscst] at hsclatS hsclngS
              rcases lt_or_gt_of_ne hidxne with hlt | hgt
              · exact List.pairwise_iff_getElem.mp hdist c.idx sc.idx hclt hsclt hlt
                  ⟨hclatS.trans hsclatS.symm, hclngS.trans hsclngS.symm⟩
              · exact List.pairwise_iff_getElem.mp hdist sc.idx c.idx hsclt hclt hgt
                  ⟨hsclatS.trans hclatS.symm, hsclngS.trans hclngS.symm⟩
            by_cases hord : c.idx < sc.idx
            · rw [if_pos hord]
              exact interpolate_bounds htot
            · rw [if_neg hord]
              exact interpolate_bounds (by rw [add_comm]; exact htot)
  · exact getTrainPosition_fallback50

theorem getTrainPosition_bounds_witness :
    ∃ x, getTrainPosition witStations witVehicle = some x ∧ 1 ≤ x ∧ x ≤ 99 :=
  getTrainPosition_bounds.1 witStations witVehicle (by norm_num [witStations])
    (by simp [witStations]) (by norm_num [witStations, List.pairwise_cons])

/-- C7 counterexample: with two stations at identical finite coordinates and
the fix on top of them, both nearest distances are `0`, the ratio is
`0 / 0 = NaN`, and the function returns NaN (`none`) — not a value in
[1, 99] as the claim states for arbitrary finite coordinates. -/
theorem getTrainPosition_bounds_cex :
    ¬ ∃ x, getTrainPosition cexStations cexVehicle = some x ∧ 1 ≤ x ∧ x ≤ 99 := by
  have hnone : getTrainPosition cexStations cexVehicle = none := by
    simp only [cexStations, cexVehicle]
    unfold getTrainPosition
    rw [if_neg (by simp [falsyNum])]
    dsimp only
    rw [if_neg (by simp [falsyNum]), if_pos (by simp)]
    simp only [Option.getD_some, distEntries, List.enum, List.enumFrom, List.map]
    norm_num [Real.sqrt_zero, List.insertionSort, List.orderedInsert, distLe, interpolate]
  rintro ⟨x, hx, -, -⟩
  rw [hnone] at hx
  exact Option.noConfusion hx

/-- C10: the coordinate-absent fallback inspects only the first station of
the ordered list — whenever the head station's latitude is absent the result
is 50 for every vehicle, whatever the vehicle's own coordinates and whatever
coordinates later stations carry; in particular every vehicle maps to 50 on
the G-line and B-line station configurations, which carry no coordinates. -/
theorem getTrainPosition_first_station_only :
    (∀ (s0 : TrackStation) (rest : List TrackStation) (v : VehicleFix),
        s0.lat = none → getTrainPosition (s0 :: rest) v = some 50) ∧
    (∀ v : VehicleFix, getTrainPosition stations113G v = some 50) ∧
    (∀ v : VehicleFix, getTrainPosition stations113B v = some 50) := by
  refine ⟨fun s0 rest v h =>
    getTrainPosition_fallback50 s0 rest v (Or.inr (Or.inr (Or.inl h))), ?_, ?_⟩
  · intro v
    exact getTrainPosition_fallback50 _ _ v (Or.inr (Or.inr (Or.inl rfl)))
  · intro v
    exact getTrainPosition_fallback50 _ _ v (Or.inr (Or.inr (Or.inl rfl)))

theorem getTrainPosition_first_station_only_witness :
    getTrainPosition (station10 :: []) vehicle10 = some 50 :=
  getTrainPosition_first_station_only.1 station10 [] vehicle10 rfl

end Commute
